import Mathlib

/-!
Verification development for the MCP Proxy Worker
(`src/cloudflare/worker/src/index.ts` of marklubin/mcp-email-server).

The worker implements a minimal OAuth 2.0 authorization-code flow backed by
GitHub identity and proxies MCP requests to a private backend with a shared
secret.  This file shallowly embeds the worker's request handlers
(`handleAuthorize`, `handleGitHubCallback`, `handleToken`, `handleMCPProxy`)
and its two in-memory `Map`s (`tokens`, `pendingAuth`), and proves or refutes
the frozen claims about them.

Modelling conventions:
* JavaScript strings are Lean `String`s; the JS string operations used by the
  worker (`toLowerCase`, `trim`, `split(",")`, `startsWith`, `slice`) are
  embedded as structurally recursive functions on `String.data` so that all
  theorems evaluate by kernel reduction.
* `Date.now()` is an explicit `now : Nat` argument (milliseconds).
* `crypto.randomUUID()` results are explicit arguments (the fresh code/token
  strings) — the worker treats them as opaque fresh names.
* The single JS `Map` `tokens` keyed by the string-prefixed keys
  `code:${c}` / `token:${t}` is modelled with the key type `StoreKey`;
  the prefixes `"code:"` and `"token:"` make the two key families disjoint
  (no string starting with `'c'` equals one starting with `'t'`), which the
  inductive tag captures exactly.
* External `fetch`es to GitHub are modelled by their observed outcome
  (the optional access token and optional login), since the handler only
  branches on those.
-/

/-- Embeds JS `String.prototype.toLowerCase` for the ASCII identifiers the
worker compares (GitHub logins, configured user names, header names). -/
def jsToLower (s : String) : String :=
  String.mk (s.data.map Char.toLower)

/-- ASCII whitespace test used by the embedded `trim`. -/
def jsIsSpace (c : Char) : Bool :=
  c = ' ' || c = '\t' || c = '\n' || c = '\r'

/-- Embeds JS `String.prototype.trim` (ASCII whitespace suffices for the
configuration strings involved). -/
def jsTrim (s : String) : String :=
  String.mk (((s.data.dropWhile jsIsSpace).reverse.dropWhile jsIsSpace).reverse)

/-- Helper for `jsSplitComma`: accumulates the current field (reversed). -/
def splitCommaAux : List Char → List Char → List String
  | [], acc => [String.mk acc.reverse]
  | c :: rest, acc =>
    if c = ',' then String.mk acc.reverse :: splitCommaAux rest []
    else splitCommaAux rest (c :: acc)

/-- Embeds JS `String.prototype.split(",")`. -/
def jsSplitComma (s : String) : List String :=
  splitCommaAux s.data []

/-- Embeds JS `String.prototype.startsWith`. -/
def jsStartsWith (s pre : String) : Bool :=
  pre.data.isPrefixOf s.data

/-- Embeds JS `String.prototype.slice(n)` for a nonnegative `n`. -/
def jsDrop (s : String) (n : Nat) : String :=
  String.mk (s.data.drop n)

/-- Embeds `env.ALLOWED_USERS.split(",").map(u => u.trim().toLowerCase())`
from `handleGitHubCallback` (index.ts line 241). -/
def allowedUsersOf (csv : String) : List String :=
  (jsSplitComma csv).map (fun u => jsToLower (jsTrim u))

/-! ### JS `Map` embedding

`mget`/`mset`/`mdel` embed `Map.get` / `Map.set` / `Map.delete` on an
association list with unique keys (`set` replaces in place). -/

/-- JS `Map.get`. -/
def mget {α β : Type} [DecidableEq α] : List (α × β) → α → Option β
  | [], _ => none
  | (k', v) :: t, k => if k' = k then some v else mget t k

/-- JS `Map.set` (replaces an existing binding, else appends). -/
def mset {α β : Type} [DecidableEq α] : List (α × β) → α → β → List (α × β)
  | [], k, v => [(k, v)]
  | (k', v') :: t, k, v =>
    if k' = k then (k, v) :: t else (k', v') :: mset t k v

/-- JS `Map.delete`. -/
def mdel {α β : Type} [DecidableEq α] : List (α × β) → α → List (α × β)
  | [], _ => []
  | (k', v') :: t, k => if k' = k then mdel t k else (k', v') :: mdel t k

theorem mget_mset_self {α β : Type} [DecidableEq α] (m : List (α × β)) (k : α) (v : β) :
    mget (mset m k v) k = some v := by
  induction m with
  | nil => simp [mset, mget]
  | cons hd t ih =>
    obtain ⟨a, b⟩ := hd
    by_cases h : a = k <;> simp [mset, mget, h, ih]

theorem mget_mset_ne {α β : Type} [DecidableEq α] (m : List (α × β)) (k k' : α) (v : β)
    (h : k' ≠ k) : mget (mset m k v) k' = mget m k' := by
  have h' : ¬ k = k' := fun hh => h hh.symm
  induction m with
  | nil => simp [mset, mget, h']
  | cons hd t ih =>
    obtain ⟨a, b⟩ := hd
    by_cases ha : a = k
    · subst ha
      simp [mset, mget, h']
    · simp [mset, mget, ha, ih]

theorem mget_mdel_self {α β : Type} [DecidableEq α] (m : List (α × β)) (k : α) :
    mget (mdel m k) k = none := by
  induction m with
  | nil => simp [mdel, mget]
  | cons hd t ih =>
    obtain ⟨a, b⟩ := hd
    by_cases h : a = k <;> simp [mdel, mget, h, ih]

theorem mget_mdel_ne {α β : Type} [DecidableEq α] (m : List (α × β)) (k k' : α)
    (h : k' ≠ k) : mget (mdel m k) k' = mget m k' := by
  have h' : ¬ k = k' := fun hh => h hh.symm
  induction m with
  | nil => simp [mdel, mget]
  | cons hd t ih =>
    obtain ⟨a, b⟩ := hd
    by_cases ha : a = k
    · subst ha
      simp [mdel, mget, h', ih]
    · simp [mdel, mget, ha, ih]

theorem mem_mset {α β : Type} [DecidableEq α] (m : List (α × β)) (k : α) (v : β)
    (p : α × β) (h : p ∈ mset m k v) : p = (k, v) ∨ p ∈ m := by
  induction m with
  | nil => simpa [mset] using h
  | cons hd t ih =>
    obtain ⟨a, b⟩ := hd
    by_cases ha : a = k
    · simp [mset, ha] at h
      rcases h with h | h
      · exact Or.inl (by simp [h])
      · exact Or.inr (List.mem_cons_of_mem _ h)
    · simp [mset, ha] at h
      rcases h with h | h
      · exact Or.inr (by simp [h])
      · rcases ih h with h' | h'
        · exact Or.inl h'
        · exact Or.inr (List.mem_cons_of_mem _ h')

theorem mem_mdel {α β : Type} [DecidableEq α] (m : List (α × β)) (k : α)
    (p : α × β) (h : p ∈ mdel m k) : p ∈ m := by
  induction m with
  | nil => simp [mdel] at h
  | cons hd t ih =>
    obtain ⟨a, b⟩ := hd
    by_cases ha : a = k
    · simp [mdel, ha] at h
      exact List.mem_cons_of_mem _ (ih h)
    · simp [mdel, ha] at h
      rcases h with h | h
      · exact by simp [h]
      · exact List.mem_cons_of_mem _ (ih h)

theorem mget_mem {α β : Type} [DecidableEq α] (m : List (α × β)) (k : α) (v : β)
    (h : mget m k = some v) : (k, v) ∈ m := by
  induction m with
  | nil => simp [mget] at h
  | cons hd t ih =>
    obtain ⟨a, b⟩ := hd
    by_cases ha : a = k
    · subst ha
      simp [mget] at h
      simp [h]
    · simp [mget, ha] at h
      exact List.mem_cons_of_mem _ (ih h)

/-! ### Fetch-API `Headers` embedding

Header names compare case-insensitively; `set` replaces every binding of the
name, `delete` removes them all, `get` returns the first match.  These embed
`new Headers(request.headers)` plus the `set`/`delete`/`get` calls the worker
makes. -/

/-- `Headers.get` (first binding whose name matches case-insensitively). -/
def headersGet : List (String × String) → String → Option String
  | [], _ => none
  | p :: t, k =>
    if jsToLower p.1 = jsToLower k then some p.2 else headersGet t k

/-- `Headers.delete` (removes every binding of the name). -/
def headersDelete : List (String × String) → String → List (String × String)
  | [], _ => []
  | p :: t, k =>
    if jsToLower p.1 = jsToLower k then headersDelete t k
    else p :: headersDelete t k

/-- `Headers.set`: replaces every binding of the name with the single new one.
(The browser API keeps the original position; only iteration order differs,
which none of the worker's observations depend on.) -/
def headersSet (hs : List (String × String)) (k v : String) : List (String × String) :=
  headersDelete hs k ++ [(k, v)]

theorem headersGet_append (xs ys : List (String × String)) (k : String) :
    headersGet (xs ++ ys) k =
      (match headersGet xs k with
       | some v => some v
       | none => headersGet ys k) := by
  induction xs with
  | nil => simp [headersGet]
  | cons p t ih =>
    by_cases hp : jsToLower p.1 = jsToLower k <;>
      simp [headersGet, hp, ih]

theorem headersGet_delete_self (hs : List (String × String)) (k k' : String)
    (h : jsToLower k' = jsToLower k) : headersGet (headersDelete hs k) k' = none := by
  induction hs with
  | nil => simp [headersDelete, headersGet]
  | cons p t ih =>
    by_cases hp : jsToLower p.1 = jsToLower k
    · simpa [headersDelete, hp] using ih
    · have hp' : ¬ jsToLower p.1 = jsToLower k' := by rw [h]; exact hp
      simpa [headersDelete, headersGet, hp, hp'] using ih

theorem headersGet_delete_ne (hs : List (String × String)) (k k' : String)
    (h : ¬ jsToLower k' = jsToLower k) :
    headersGet (headersDelete hs k) k' = headersGet hs k' := by
  induction hs with
  | nil => simp [headersDelete, headersGet]
  | cons p t ih =>
    by_cases hp : jsToLower p.1 = jsToLower k
    · have h'' : ¬ jsToLower k = jsToLower k' := fun hh => h hh.symm
      simpa [headersDelete, headersGet, hp, h''] using ih
    · simp [headersDelete, headersGet, hp, ih]

theorem headersGet_set_self (hs : List (String × String)) (k v : String) :
    headersGet (headersSet hs k v) k = some v := by
  rw [headersSet, headersGet_append,
    headersGet_delete_self hs k k rfl]
  simp [headersGet]

theorem headersGet_set_ne (hs : List (String × String)) (k k' v : String)
    (h : ¬ jsToLower k' = jsToLower k) :
    headersGet (headersSet hs k v) k' = headersGet hs k' := by
  have h' : ¬ jsToLower k = jsToLower k' := fun hh => h hh.symm
  rw [headersSet, headersGet_append,
    headersGet_delete_ne hs k k' h]
  cases hq : headersGet hs k' <;> simp [headersGet, h']

/-! ### Data model

`TokenData` is the value type of the worker's `tokens` map
(index.ts line 17); `PendingData` the value type of `pendingAuth`
(line 18).  `StoreKey` models the string keys `code:${c}` / `token:${t}`. -/

/-- Value stored in the `tokens` map: `{ userId: string; expiresAt: number }`. -/
structure TokenData where
  userId : String
  expiresAt : Nat
deriving DecidableEq

/-- Value stored in the `pendingAuth` map:
`{ redirectUri: string; state: string; codeChallenge?: string }`. -/
structure PendingData where
  redirectUri : String
  state : String
  codeChallenge : Option String
deriving DecidableEq

/-- Key of the `tokens` map: `code:${c}` or `token:${t}` (the two prefixes
are disjoint, which the constructor tag captures exactly). -/
inductive StoreKey where
  | code (c : String)
  | token (t : String)
deriving DecidableEq

/-- The worker's whole mutable state: the two module-level `Map`s. -/
structure SysState where
  tokens : List (StoreKey × TokenData)
  pending : List (String × PendingData)
deriving DecidableEq

/-- Normalized `/token` request parameters (`URLSearchParams` built from the
form-encoded or JSON body, index.ts lines 132-145).  `code_verifier` and
`refresh_token` are part of the wire format but `handleToken` never reads
them, hence they do not occur in its definition below. -/
structure TokenParams where
  grant_type : Option String
  code : Option String
  client_id : Option String
  client_secret : Option String
  code_verifier : Option String
  refresh_token : Option String
deriving DecidableEq

/-- Observable outcome of `handleToken`. -/
inductive TokenResult where
  | ok (access_token : String) (token_type : String) (expires_in : Nat)
      (refresh_token : String)
  | invalidGrant
  | unsupportedGrant
  | methodNotAllowed
deriving DecidableEq

/-- HTTP status of each `handleToken` outcome (index.ts lines 129, 152, 178, 188). -/
def tokenStatus : TokenResult → Nat
  | .ok _ _ _ _ => 200
  | .invalidGrant => 400
  | .unsupportedGrant => 400
  | .methodNotAllowed => 405

/-- The `error` field of the JSON body of each failing `handleToken` outcome. -/
def tokenErrorBody : TokenResult → Option String
  | .invalidGrant => some "invalid_grant"
  | .unsupportedGrant => some "unsupported_grant_type"
  | _ => none

/-- Observable outcome of `handleAuthorize`. -/
inductive AuthorizeResult where
  | badRequest
  | redirectToGitHub (githubState : String)
deriving DecidableEq

/-- Observable outcome of `handleGitHubCallback`. -/
inductive CallbackResult where
  | missingParams
  | invalidSession
  | oauthFailed
  | userInfoFailed
  | accessDenied (login : String)
  | redirectToClient (redirectUri : String) (code : String) (clientState : String)
deriving DecidableEq

/-- HTTP status of each `handleGitHubCallback` outcome
(index.ts lines 198, 204, 224, 237, 245, 261). -/
def callbackStatus : CallbackResult → Nat
  | .missingParams => 400
  | .invalidSession => 400
  | .oauthFailed => 400
  | .userInfoFailed => 400
  | .accessDenied _ => 403
  | .redirectToClient _ _ _ => 302

/-- Body of the 403 denial response, the template literal
`Access denied. User '${login}' is not authorized.` (index.ts line 244);
`Char.ofNat 39` is the ASCII apostrophe. -/
def deniedBody (login : String) : String :=
  String.mk ("Access denied. User ".data ++ [Char.ofNat 39] ++ login.data
    ++ [Char.ofNat 39] ++ " is not authorized.".data)

/-- Response body of each `handleGitHubCallback` outcome that the claims
observe (`none` for the 302 redirect, whose payload is its Location URL, and
for the GitHub failure bodies, which interpolate provider-supplied text). -/
def callbackBody : CallbackResult → Option String
  | .missingParams => some "Missing code or state"
  | .invalidSession => some "Invalid or expired auth session"
  | .accessDenied login => some (deniedBody login)
  | _ => none

/-- Discovery document served by `handleOAuthMetadata` (index.ts lines 80-88);
only the capability lists, which the claims reference. -/
structure OAuthMetadata where
  response_types_supported : List String
  grant_types_supported : List String
  code_challenge_methods_supported : List String
deriving DecidableEq

/-- The literal capability lists of the discovery document. -/
def oauthMetadata : OAuthMetadata :=
  ⟨["code"], ["authorization_code", "refresh_token"], ["S256"]⟩

/-! ### Handlers -/

/-- Embeds `handleAuthorize` (index.ts lines 98-125).  `authId` is the
`crypto.randomUUID()` result.  JS truthiness makes an empty string count as
missing.  Only the `pendingAuth` effect and the response kind are modelled;
the GitHub redirect URL carries `authId` as the provider's `state`. -/
def handleAuthorize (redirectUri state codeChallenge : Option String)
    (authId : String) (pending : List (String × PendingData)) :
    AuthorizeResult × List (String × PendingData) :=
  match redirectUri, state with
  | some ru, some st =>
    if ru ≠ "" ∧ st ≠ "" then
      (.redirectToGitHub authId, mset pending authId ⟨ru, st, codeChallenge⟩)
    else (.badRequest, pending)
  | _, _ => (.badRequest, pending)

/-- Embeds `handleToken` (index.ts lines 127-191).  `acc` and `rfr` are the
two `crypto.randomUUID()` results, `now` is `Date.now()`.  Note that the
minted `refresh_token` is returned but never stored, and that no
`code_verifier` parameter is ever consulted. -/
def handleToken (method : String) (p : TokenParams) (now : Nat)
    (acc rfr : String) (tokens : List (StoreKey × TokenData)) :
    TokenResult × List (StoreKey × TokenData) :=
  if method ≠ "POST" then (.methodNotAllowed, tokens)
  else
    match p.grant_type, p.code with
    | some gt, some c =>
      if gt = "authorization_code" ∧ c ≠ "" then
        match mget tokens (.code c) with
        | none => (.invalidGrant, tokens)
        | some codeData =>
          if codeData.expiresAt < now then (.invalidGrant, tokens)
          else
            (.ok acc "Bearer" 3600 rfr,
             mset (mdel tokens (.code c)) (.token acc)
               ⟨codeData.userId, now + 3600 * 1000⟩)
      else (.unsupportedGrant, tokens)
    | _, _ => (.unsupportedGrant, tokens)

/-- Embeds `handleGitHubCallback` (index.ts lines 193-262).  The two
external GitHub fetches are represented by their observed outcomes:
`ghAccessToken` is `tokenData.access_token` and `ghLogin` is
`userData.login` (`none`/empty = the corresponding falsy check fails).
`ourCode` is the `crypto.randomUUID()` result, `now` is `Date.now()`,
`allowedCsv` is `env.ALLOWED_USERS`. -/
def handleGitHubCallback (qCode qState ghAccessToken ghLogin : Option String)
    (ourCode : String) (now : Nat) (allowedCsv : String) (s : SysState) :
    CallbackResult × SysState :=
  match qCode, qState with
  | some c, some authId =>
    if c ≠ "" ∧ authId ≠ "" then
      match mget s.pending authId with
      | none => (.invalidSession, s)
      | some pending =>
        let s1 : SysState := ⟨s.tokens, mdel s.pending authId⟩
        match ghAccessToken with
        | none => (.oauthFailed, s1)
        | some gt =>
          if gt = "" then (.oauthFailed, s1)
          else
            match ghLogin with
            | none => (.userInfoFailed, s1)
            | some login =>
              if login = "" then (.userInfoFailed, s1)
              else if jsToLower login ∈ allowedUsersOf allowedCsv then
                (.redirectToClient pending.redirectUri ourCode pending.state,
                 ⟨mset s1.tokens (.code ourCode) ⟨login, now + 600000⟩,
                  s1.pending⟩)
              else (.accessDenied login, s1)
    else (.missingParams, s)
  | _, _ => (.missingParams, s)

/-- Outcome of `handleMCPProxy`; `β` is the (streamed) request body type,
passed through untouched.  `errorResp` carries the HTTP status, the JSON-RPC
`error.code`, the `error.message`, and the optional `WWW-Authenticate`
header. -/
inductive ProxyResult (β : Type) where
  | errorResp (status : Nat) (errorCode : Int) (message : String)
      (wwwAuthenticate : Option String)
  | forwarded (method : String) (headers : List (String × String)) (body : β)
deriving DecidableEq

/-- The header transformation of `handleMCPProxy` (index.ts lines 304-306):
copy the inbound headers, `set("X-MCP-Secret", env.MCP_SECRET)`, then
`delete("Authorization")`. -/
def proxyHeaders (reqHeaders : List (String × String)) (secret : String) :
    List (String × String) :=
  headersDelete (headersSet reqHeaders "X-MCP-Secret" secret) "Authorization"

/-- Embeds `handleMCPProxy` (index.ts lines 264-316) up to the backend
`fetch`: bearer extraction, token validation, and construction of the
forwarded request.  `secret` is `env.MCP_SECRET`, `now` is `Date.now()`. -/
def handleMCPProxy {β : Type} (method : String)
    (reqHeaders : List (String × String)) (body : β) (secret : String)
    (now : Nat) (tokens : List (StoreKey × TokenData)) : ProxyResult β :=
  match headersGet reqHeaders "Authorization" with
  | none =>
    .errorResp 401 (-32001) "Missing or invalid Authorization header"
      (some "Bearer realm=\"mcp\"")
  | some h =>
    if jsStartsWith h "Bearer " = false then
      .errorResp 401 (-32001) "Missing or invalid Authorization header"
        (some "Bearer realm=\"mcp\"")
    else
      match mget tokens (.token (jsDrop h 7)) with
      | none => .errorResp 401 (-32001) "Invalid or expired token" none
      | some tokenData =>
        if tokenData.expiresAt < now then
          .errorResp 401 (-32001) "Invalid or expired token" none
        else .forwarded method (proxyHeaders reqHeaders secret) body

/-- HTTP status of a `handleMCPProxy` outcome (`none` when forwarded: the
status is then the backend's). -/
def proxyStatus {β : Type} : ProxyResult β → Option Nat
  | .errorResp st _ _ _ => some st
  | .forwarded _ _ _ => none

/-- JSON-RPC `error.code` of a `handleMCPProxy` error outcome. -/
def proxyErrCode {β : Type} : ProxyResult β → Option Int
  | .errorResp _ c _ _ => some c
  | .forwarded _ _ _ => none

/-- `WWW-Authenticate` header of a `handleMCPProxy` error outcome. -/
def proxyWWWAuth {β : Type} : ProxyResult β → Option String
  | .errorResp _ _ _ w => w
  | .forwarded _ _ _ => none

/-- The header transformation the specification describes: all inbound
headers except the hop-by-hop headers (`host`, `connection`, `keep-alive`,
`transfer-encoding`) and the inbound `authorization` header, plus the
shared-secret header.  Stated from the spec's words, for comparison with
`proxyHeaders` (which is taken from the source). -/
def claimedHeaderTransform (reqHeaders : List (String × String))
    (secret : String) : List (String × String) :=
  headersSet
    (headersDelete
      (headersDelete
        (headersDelete
          (headersDelete
            (headersDelete reqHeaders "host")
            "connection")
          "keep-alive")
        "transfer-encoding")
      "authorization")
    "X-MCP-Secret" secret

/-! ### Proxy Gateway claims (C1, C9, C10) -/

theorem handleMCPProxy_forwarded_headers {β : Type} (method : String)
    (reqHeaders : List (String × String)) (body : β) (secret : String)
    (now : Nat) (tokens : List (StoreKey × TokenData)) (m' : String)
    (fh : List (String × String)) (b' : β)
    (h : handleMCPProxy method reqHeaders body secret now tokens
          = ProxyResult.forwarded m' fh b') :
    fh = proxyHeaders reqHeaders secret := by
  unfold handleMCPProxy at h
  split at h
  · exact absurd h (by simp)
  · split at h
    · exact absurd h (by simp)
    · split at h
      · exact absurd h (by simp)
      · split at h
        · exact absurd h (by simp)
        · injection h with h1 h2 h3
          exact h2.symm

/-- C1: for every proxied request that passes bearer validation — any
method, any body — the forwarded request's headers contain no
`Authorization` header and carry `X-MCP-Secret` set to the configured
secret. -/
theorem proxy_never_forwards_auth {β : Type} (method : String)
    (reqHeaders : List (String × String)) (body : β) (secret : String)
    (now : Nat) (tokens : List (StoreKey × TokenData)) (m' : String)
    (fh : List (String × String)) (b' : β)
    (h : handleMCPProxy method reqHeaders body secret now tokens
          = ProxyResult.forwarded m' fh b') :
    headersGet fh "Authorization" = none ∧
    headersGet fh "X-MCP-Secret" = some secret := by
  have hfh := handleMCPProxy_forwarded_headers method reqHeaders body secret
    now tokens m' fh b' h
  subst hfh
  refine ⟨headersGet_delete_self _ _ _ rfl, ?_⟩
  rw [proxyHeaders, headersGet_delete_ne _ _ _ (by decide), headersGet_set_self]

/-- Witness for C1 at a concrete request: a POST with a valid bearer and an
extra header is forwarded, and the forwarded headers drop `Authorization`
and carry the secret. -/
theorem proxy_never_forwards_auth_witness :
    headersGet (proxyHeaders [("Authorization", "Bearer tok1"), ("Accept", "x")] "s3cret")
        "Authorization" = none ∧
    headersGet (proxyHeaders [("Authorization", "Bearer tok1"), ("Accept", "x")] "s3cret")
        "X-MCP-Secret" = some "s3cret" :=
  proxy_never_forwards_auth "POST" [("Authorization", "Bearer tok1"), ("Accept", "x")]
    "{}" "s3cret" 5 [(StoreKey.token "tok1", ⟨"alice", 10⟩)] "POST"
    (proxyHeaders [("Authorization", "Bearer tok1"), ("Accept", "x")] "s3cret") "{}"
    (by decide)

/-- C9 (amended): every bearer failure at the proxy yields HTTP 401 with a
structured JSON-RPC error object, but the error code is `-32001` in BOTH
cases — only the message distinguishes them — and the `WWW-Authenticate`
challenge is present only in the missing/invalid-header case. -/
theorem bearer_errors_uniform {β : Type} (method : String)
    (reqHeaders : List (String × String)) (body : β) (secret : String)
    (now : Nat) (tokens : List (StoreKey × TokenData)) (st : Nat) (c : Int)
    (msg : String) (w : Option String)
    (h : handleMCPProxy method reqHeaders body secret now tokens
          = ProxyResult.errorResp st c msg w) :
    st = 401 ∧ c = -32001 ∧
      ((msg = "Missing or invalid Authorization header"
          ∧ w = some "Bearer realm=\"mcp\"") ∨
       (msg = "Invalid or expired token" ∧ w = none)) := by
  unfold handleMCPProxy at h
  split at h
  · cases h
    exact ⟨rfl, rfl, Or.inl ⟨rfl, rfl⟩⟩
  · split at h
    · cases h
      exact ⟨rfl, rfl, Or.inl ⟨rfl, rfl⟩⟩
    · split at h
      · cases h
        exact ⟨rfl, rfl, Or.inr ⟨rfl, rfl⟩⟩
      · split at h
        · cases h
          exact ⟨rfl, rfl, Or.inr ⟨rfl, rfl⟩⟩
        · exact absurd h (by simp)

/-- Witness for C9's amended theorem at a concrete request with no
`Authorization` header. -/
theorem bearer_errors_uniform_witness :
    (401 = 401 ∧ (-32001 : Int) = -32001 ∧
      (("Missing or invalid Authorization header"
            = "Missing or invalid Authorization header"
          ∧ (some "Bearer realm=\"mcp\"" : Option String)
            = some "Bearer realm=\"mcp\"") ∨
       ("Missing or invalid Authorization header" = "Invalid or expired token"
          ∧ (some "Bearer realm=\"mcp\"" : Option String) = none))) :=
  bearer_errors_uniform "GET" [] () "s3cret" 0 [] 401 (-32001)
    "Missing or invalid Authorization header" (some "Bearer realm=\"mcp\"")
    (by decide)

/-- C9 counterexample: at concrete inputs, the missing-header case and the
unknown-token case return the SAME error code (`-32001`), and the
unknown-token response carries no `WWW-Authenticate` header — the claim
asserts distinct codes and a challenge in both cases. -/
theorem bearer_error_code_not_distinct_cex :
    proxyStatus (handleMCPProxy "GET" [] () "s3cret" 0 []) = some 401 ∧
    proxyStatus (handleMCPProxy "GET" [("Authorization", "Bearer zzz")] ()
        "s3cret" 0 []) = some 401 ∧
    proxyErrCode (handleMCPProxy "GET" [] () "s3cret" 0 [])
      = proxyErrCode (handleMCPProxy "GET" [("Authorization", "Bearer zzz")] ()
          "s3cret" 0 []) ∧
    proxyWWWAuth (handleMCPProxy "GET" [("Authorization", "Bearer zzz")] ()
        "s3cret" 0 []) = none := by
  decide

/-- C10 (amended): the forwarded header set equals the inbound one with the
`authorization` header removed and `X-MCP-Secret` set; every other header —
including the hop-by-hop headers — is forwarded unchanged. -/
theorem proxy_header_frame {β : Type} (method : String)
    (reqHeaders : List (String × String)) (body : β) (secret : String)
    (now : Nat) (tokens : List (StoreKey × TokenData)) (m' : String)
    (fh : List (String × String)) (b' : β)
    (h : handleMCPProxy method reqHeaders body secret now tokens
          = ProxyResult.forwarded m' fh b') :
    ∀ k : String, ¬ jsToLower k = jsToLower "Authorization" →
      ¬ jsToLower k = jsToLower "X-MCP-Secret" →
      headersGet fh k = headersGet reqHeaders k := by
  have hfh := handleMCPProxy_forwarded_headers method reqHeaders body secret
    now tokens m' fh b' h
  subst hfh
  intro k hk1 hk2
  rw [proxyHeaders, headersGet_delete_ne _ _ _ hk1, headersGet_set_ne _ _ _ _ hk2]

/-- Witness for C10's amended theorem: the hop-by-hop header `Connection`
survives the transformation unchanged on a concrete forwarded request. -/
theorem proxy_header_frame_witness :
    headersGet
        (proxyHeaders [("Connection", "keep-alive"), ("Authorization", "Bearer tok2")]
          "s3cret") "Connection"
      = headersGet [("Connection", "keep-alive"), ("Authorization", "Bearer tok2")]
          "Connection" :=
  proxy_header_frame "GET"
    [("Connection", "keep-alive"), ("Authorization", "Bearer tok2")] () "s3cret" 5
    [(StoreKey.token "tok2", ⟨"bob", 10⟩)] "GET"
    (proxyHeaders [("Connection", "keep-alive"), ("Authorization", "Bearer tok2")] "s3cret")
    () (by decide) "Connection" (by decide) (by decide)

/-- C10 counterexample: on a concrete forwarded request carrying `Host` and
`Connection` headers, the code forwards both (it removes no hop-by-hop
headers), so the forwarded set differs from the claimed one, which removes
them. -/
theorem hop_by_hop_forwarded_cex :
    handleMCPProxy "POST"
        [("Host", "w.example"), ("Connection", "keep-alive"),
         ("Authorization", "Bearer tok1")] "{}" "s3cret" 0
        [(StoreKey.token "tok1", ⟨"alice", 10⟩)]
      = ProxyResult.forwarded "POST"
          (proxyHeaders
            [("Host", "w.example"), ("Connection", "keep-alive"),
             ("Authorization", "Bearer tok1")] "s3cret") "{}" ∧
    headersGet
        (proxyHeaders
          [("Host", "w.example"), ("Connection", "keep-alive"),
           ("Authorization", "Bearer tok1")] "s3cret") "connection"
      = some "keep-alive" ∧
    headersGet
        (claimedHeaderTransform
          [("Host", "w.example"), ("Connection", "keep-alive"),
           ("Authorization", "Bearer tok1")] "s3cret") "connection"
      = none ∧
    proxyHeaders
        [("Host", "w.example"), ("Connection", "keep-alive"),
         ("Authorization", "Bearer tok1")] "s3cret"
      ≠ claimedHeaderTransform
          [("Host", "w.example"), ("Connection", "keep-alive"),
           ("Authorization", "Bearer tok1")] "s3cret" := by
  decide

/-! ### Token endpoint claims (C2, C7) -/

/-- C2: a live (stored, unexpired) authorization code is redeemable exactly
once: the first POST with `grant_type=authorization_code` succeeds with
`access_token`, `token_type=Bearer`, `expires_in` and `refresh_token`,
deletes the code, and an immediately following second call with the same
code — at any later time, with any fresh token names — fails with HTTP 400
and body `error=invalid_grant`, mutating nothing. -/
theorem authorization_code_single_use (c acc rfr acc2 rfr2 : String)
    (now now2 : Nat) (codeData : TokenData)
    (tokens : List (StoreKey × TokenData))
    (hc : c ≠ "")
    (hlive : mget tokens (StoreKey.code c) = some codeData)
    (hfresh : ¬ codeData.expiresAt < now) :
    handleToken "POST" ⟨some "authorization_code", some c, none, none, none, none⟩
        now acc rfr tokens
      = (TokenResult.ok acc "Bearer" 3600 rfr,
         mset (mdel tokens (StoreKey.code c)) (StoreKey.token acc)
           ⟨codeData.userId, now + 3600 * 1000⟩) ∧
    handleToken "POST" ⟨some "authorization_code", some c, none, none, none, none⟩
        now2 acc2 rfr2
        (mset (mdel tokens (StoreKey.code c)) (StoreKey.token acc)
          ⟨codeData.userId, now + 3600 * 1000⟩)
      = (TokenResult.invalidGrant,
         mset (mdel tokens (StoreKey.code c)) (StoreKey.token acc)
           ⟨codeData.userId, now + 3600 * 1000⟩) ∧
    tokenStatus (TokenResult.ok acc "Bearer" 3600 rfr) = 200 ∧
    tokenStatus TokenResult.invalidGrant = 400 ∧
    tokenErrorBody TokenResult.invalidGrant = some "invalid_grant" := by
  have hdead : mget (mset (mdel tokens (StoreKey.code c)) (StoreKey.token acc)
      ⟨codeData.userId, now + 3600 * 1000⟩) (StoreKey.code c) = none := by
    rw [mget_mset_ne _ _ _ _ (fun h => StoreKey.noConfusion h), mget_mdel_self]
  refine ⟨?_, ?_, rfl, rfl, rfl⟩
  · unfold handleToken
    rw [if_neg (by simp)]
    dsimp only
    rw [if_pos ⟨rfl, hc⟩, hlive]
    dsimp only
    rw [if_neg hfresh]
  · unfold handleToken
    rw [if_neg (by simp)]
    dsimp only
    rw [if_pos ⟨rfl, hc⟩, hdead]

/-- Witness for C2 at a concrete live code. -/
theorem authorization_code_single_use_witness :
    handleToken "POST" ⟨some "authorization_code", some "c1", none, none, none, none⟩
        50 "a1" "r1" [(StoreKey.code "c1", ⟨"alice", 100⟩)]
      = (TokenResult.ok "a1" "Bearer" 3600 "r1",
         mset (mdel [(StoreKey.code "c1", ⟨"alice", 100⟩)] (StoreKey.code "c1"))
           (StoreKey.token "a1") ⟨"alice", 50 + 3600 * 1000⟩) ∧
    handleToken "POST" ⟨some "authorization_code", some "c1", none, none, none, none⟩
        60 "a2" "r2"
        (mset (mdel [(StoreKey.code "c1", ⟨"alice", 100⟩)] (StoreKey.code "c1"))
          (StoreKey.token "a1") ⟨"alice", 50 + 3600 * 1000⟩)
      = (TokenResult.invalidGrant,
         mset (mdel [(StoreKey.code "c1", ⟨"alice", 100⟩)] (StoreKey.code "c1"))
           (StoreKey.token "a1") ⟨"alice", 50 + 3600 * 1000⟩) ∧
    tokenStatus (TokenResult.ok "a1" "Bearer" 3600 "r1") = 200 ∧
    tokenStatus TokenResult.invalidGrant = 400 ∧
    tokenErrorBody TokenResult.invalidGrant = some "invalid_grant" :=
  authorization_code_single_use "c1" "a1" "r1" "a2" "r2" 50 60
    ⟨"alice", 100⟩ [(StoreKey.code "c1", ⟨"alice", 100⟩)]
    (by decide) (by decide) (by decide)

/-- C7 (code bug, evaluated): the discovery document advertises the
`refresh_token` grant, yet a successful redemption returns a refresh token
that is never stored, and a subsequent POST with
`grant_type=refresh_token` carrying it is rejected with HTTP 400
`unsupported_grant_type` instead of minting a new access token. -/
theorem refresh_grant_rejected_eval :
    "refresh_token" ∈ oauthMetadata.grant_types_supported ∧
    handleToken "POST"
        ⟨some "authorization_code", some "c1", none, none, none, none⟩ 0 "a1" "r1"
        [(StoreKey.code "c1", ⟨"alice", 600000⟩)]
      = (TokenResult.ok "a1" "Bearer" 3600 "r1",
         [(StoreKey.token "a1", ⟨"alice", 3600000⟩)]) ∧
    handleToken "POST"
        ⟨some "refresh_token", none, none, none, none, some "r1"⟩ 1000 "a2" "r2"
        [(StoreKey.token "a1", ⟨"alice", 3600000⟩)]
      = (TokenResult.unsupportedGrant,
         [(StoreKey.token "a1", ⟨"alice", 3600000⟩)]) ∧
    tokenStatus TokenResult.unsupportedGrant = 400 ∧
    tokenErrorBody TokenResult.unsupportedGrant = some "unsupported_grant_type" := by
  decide

/-! ### Callback endpoint claims (C3, C4, C6, C8) -/

theorem callback_found_pending (qc authId : String) (gtk gl : Option String)
    (ourCode : String) (now : Nat) (csv : String) (s : SysState)
    (pd : PendingData) (hqc : qc ≠ "") (haid : authId ≠ "")
    (hsess : mget s.pending authId = some pd) :
    (handleGitHubCallback (some qc) (some authId) gtk gl ourCode now csv s).2.pending
      = mdel s.pending authId := by
  unfold handleGitHubCallback
  dsimp only
  rw [if_pos ⟨hqc, haid⟩, hsess]
  dsimp only
  cases gtk with
  | none => rfl
  | some g =>
    dsimp only
    by_cases hg : g = ""
    · simp [hg]
    · rw [if_neg hg]
      cases gl with
      | none => rfl
      | some login =>
        dsimp only
        by_cases hl : login = ""
        · simp [hl]
        · rw [if_neg hl]
          by_cases hmem : jsToLower login ∈ allowedUsersOf csv
          · rw [if_pos hmem]
          · rw [if_neg hmem]

theorem callback_absent (qc authId : String) (gtk gl : Option String)
    (ourCode : String) (now : Nat) (csv : String) (s : SysState)
    (hqc : qc ≠ "") (haid : authId ≠ "")
    (habs : mget s.pending authId = none) :
    handleGitHubCallback (some qc) (some authId) gtk gl ourCode now csv s
      = (CallbackResult.invalidSession, s) := by
  unfold handleGitHubCallback
  dsimp only
  rw [if_pos ⟨hqc, haid⟩, habs]

/-- C3: a pending session is consumed at most once — the callback deletes it
upon lookup, before identity verification (the deletion happens whatever the
GitHub exchange later yields), and any second callback with the same
correlation id fails with the 400 session-not-found error, leaving the state
untouched and minting no code. -/
theorem pending_session_single_use (qc authId : String) (gtk gl : Option String)
    (ourCode : String) (now : Nat) (csv : String) (s : SysState)
    (pd : PendingData) (hqc : qc ≠ "") (haid : authId ≠ "")
    (hsess : mget s.pending authId = some pd) :
    mget (handleGitHubCallback (some qc) (some authId) gtk gl ourCode now csv s).2.pending
        authId = none ∧
    (∀ (qc2 : String) (gtk2 gl2 : Option String) (ourCode2 : String) (now2 : Nat),
      qc2 ≠ "" →
      handleGitHubCallback (some qc2) (some authId) gtk2 gl2 ourCode2 now2 csv
          (handleGitHubCallback (some qc) (some authId) gtk gl ourCode now csv s).2
        = (CallbackResult.invalidSession,
           (handleGitHubCallback (some qc) (some authId) gtk gl ourCode now csv s).2)) ∧
    callbackStatus CallbackResult.invalidSession = 400 ∧
    callbackBody CallbackResult.invalidSession = some "Invalid or expired auth session" := by
  have hp := callback_found_pending qc authId gtk gl ourCode now csv s pd hqc haid hsess
  refine ⟨by rw [hp]; exact mget_mdel_self _ _, ?_, rfl, rfl⟩
  intro qc2 gtk2 gl2 ourCode2 now2 hqc2
  exact callback_absent qc2 authId gtk2 gl2 ourCode2 now2 csv _ hqc2 haid
    (by rw [hp]; exact mget_mdel_self _ _)

/-- Witness for C3 at a concrete first callback (GitHub outcome arbitrary:
here the exchange succeeds for user alice) followed by a concrete replay. -/
theorem pending_session_single_use_witness :
    mget (handleGitHubCallback (some "ghc") (some "aid1") (some "t") (some "alice")
          "code1" 0 "alice"
          ⟨[], [("aid1", ⟨"https://client/cb", "xyz", none⟩)]⟩).2.pending "aid1" = none ∧
    (∀ (qc2 : String) (gtk2 gl2 : Option String) (ourCode2 : String) (now2 : Nat),
      qc2 ≠ "" →
      handleGitHubCallback (some qc2) (some "aid1") gtk2 gl2 ourCode2 now2 "alice"
          (handleGitHubCallback (some "ghc") (some "aid1") (some "t") (some "alice")
            "code1" 0 "alice"
            ⟨[], [("aid1", ⟨"https://client/cb", "xyz", none⟩)]⟩).2
        = (CallbackResult.invalidSession,
           (handleGitHubCallback (some "ghc") (some "aid1") (some "t") (some "alice")
             "code1" 0 "alice"
             ⟨[], [("aid1", ⟨"https://client/cb", "xyz", none⟩)]⟩).2)) ∧
    callbackStatus CallbackResult.invalidSession = 400 ∧
    callbackBody CallbackResult.invalidSession = some "Invalid or expired auth session" :=
  pending_session_single_use "ghc" "aid1" (some "t") (some "alice") "code1" 0 "alice"
    ⟨[], [("aid1", ⟨"https://client/cb", "xyz", none⟩)]⟩
    ⟨"https://client/cb", "xyz", none⟩ (by decide) (by decide) (by decide)

theorem callback_denied_eq (qc authId gt login ourCode : String) (now : Nat)
    (csv : String) (s : SysState) (pd : PendingData)
    (hqc : qc ≠ "") (haid : authId ≠ "") (hgt : gt ≠ "") (hl : login ≠ "")
    (hsess : mget s.pending authId = some pd)
    (hdeny : ¬ jsToLower login ∈ allowedUsersOf csv) :
    handleGitHubCallback (some qc) (some authId) (some gt) (some login)
        ourCode now csv s
      = (CallbackResult.accessDenied login,
         ⟨s.tokens, mdel s.pending authId⟩) := by
  unfold handleGitHubCallback
  dsimp only
  rw [if_pos ⟨hqc, haid⟩, hsess]
  dsimp only
  rw [if_neg hgt, if_neg hl, if_neg hdeny]

/-- C4: a callback whose verified identity is not on the allow-list (checked
case-insensitively) gets a 403 whose body names the rejected login, is not
redirected anywhere, and stores no authorization code — the token map is
unchanged, only the consumed session is deleted. -/
theorem denied_identity_no_code_no_redirect (qc authId gt login ourCode : String)
    (now : Nat) (csv : String) (s : SysState) (pd : PendingData)
    (hqc : qc ≠ "") (haid : authId ≠ "") (hgt : gt ≠ "") (hl : login ≠ "")
    (hsess : mget s.pending authId = some pd)
    (hdeny : ¬ jsToLower login ∈ allowedUsersOf csv) :
    handleGitHubCallback (some qc) (some authId) (some gt) (some login)
        ourCode now csv s
      = (CallbackResult.accessDenied login,
         ⟨s.tokens, mdel s.pending authId⟩) ∧
    callbackStatus (CallbackResult.accessDenied login) = 403 ∧
    callbackBody (CallbackResult.accessDenied login) = some (deniedBody login) ∧
    (∃ pre post : List Char, (deniedBody login).data = pre ++ login.data ++ post) := by
  refine ⟨callback_denied_eq qc authId gt login ourCode now csv s pd
    hqc haid hgt hl hsess hdeny, rfl, rfl,
    ⟨"Access denied. User ".data ++ [Char.ofNat 39],
     [Char.ofNat 39] ++ " is not authorized.".data, ?_⟩⟩
  simp [deniedBody]

/-- Witness for C4: user `Mallory` with allow-list `alice, bob` is denied at
a concrete callback. -/
theorem denied_identity_no_code_no_redirect_witness :
    handleGitHubCallback (some "ghc") (some "aid1") (some "t") (some "Mallory")
        "code1" 0 "alice, bob"
        ⟨[], [("aid1", ⟨"https://client/cb", "xyz", none⟩)]⟩
      = (CallbackResult.accessDenied "Mallory",
         ⟨[], mdel [("aid1", (⟨"https://client/cb", "xyz", none⟩ : PendingData))] "aid1"⟩) ∧
    callbackStatus (CallbackResult.accessDenied "Mallory") = 403 ∧
    callbackBody (CallbackResult.accessDenied "Mallory")
      = some (deniedBody "Mallory") ∧
    (∃ pre post : List Char, (deniedBody "Mallory").data = pre ++ "Mallory".data ++ post) :=
  denied_identity_no_code_no_redirect "ghc" "aid1" "t" "Mallory" "code1" 0 "alice, bob"
    ⟨[], [("aid1", ⟨"https://client/cb", "xyz", none⟩)]⟩
    ⟨"https://client/cb", "xyz", none⟩
    (by decide) (by decide) (by decide) (by decide) (by decide) (by decide)

theorem callback_allowed_eq (qc authId gt login ourCode : String) (now : Nat)
    (csv : String) (s : SysState) (pd : PendingData)
    (hqc : qc ≠ "") (haid : authId ≠ "") (hgt : gt ≠ "") (hl : login ≠ "")
    (hsess : mget s.pending authId = some pd)
    (hallow : jsToLower login ∈ allowedUsersOf csv) :
    handleGitHubCallback (some qc) (some authId) (some gt) (some login)
        ourCode now csv s
      = (CallbackResult.redirectToClient pd.redirectUri ourCode pd.state,
         ⟨mset s.tokens (StoreKey.code ourCode) ⟨login, now + 600000⟩,
          mdel s.pending authId⟩) := by
  unfold handleGitHubCallback
  dsimp only
  rw [if_pos ⟨hqc, haid⟩, hsess]
  dsimp only
  rw [if_neg hgt, if_neg hl, if_pos hallow]

/-- C8 (amended): pending sessions record no creation time and the callback
performs no age check — a stored session is treated as live at every instant
`now`, however far from its creation; only prior consumption (deletion)
makes a callback fail.  (The 10-minute figure in the data model belongs to
minted authorization codes, not to pending sessions.) -/
theorem session_age_ignored (qc authId gt login ourCode : String)
    (csv : String) (s : SysState) (pd : PendingData)
    (hqc : qc ≠ "") (haid : authId ≠ "") (hgt : gt ≠ "") (hl : login ≠ "")
    (hsess : mget s.pending authId = some pd)
    (hallow : jsToLower login ∈ allowedUsersOf csv) :
    ∀ now : Nat,
      (handleGitHubCallback (some qc) (some authId) (some gt) (some login)
          ourCode now csv s).1
        = CallbackResult.redirectToClient pd.redirectUri ourCode pd.state := by
  intro now
  rw [callback_allowed_eq qc authId gt login ourCode now csv s pd
    hqc haid hgt hl hsess hallow]

/-- Witness for C8's amended theorem, instantiated at `now` = 11 minutes
(660000 ms past any creation instant). -/
theorem session_age_ignored_witness :
    (handleGitHubCallback (some "ghc") (some "aid1") (some "t") (some "alice")
        "code1" 660000 "alice"
        ⟨[], [("aid1", ⟨"https://client/cb", "xyz", none⟩)]⟩).1
      = CallbackResult.redirectToClient "https://client/cb" "code1" "xyz" :=
  session_age_ignored "ghc" "aid1" "t" "alice" "code1" "alice"
    ⟨[], [("aid1", ⟨"https://client/cb", "xyz", none⟩)]⟩
    ⟨"https://client/cb", "xyz", none⟩
    (by decide) (by decide) (by decide) (by decide) (by decide) (by decide) 660000

/-- C8 counterexample: a session created by `/authorize` is still honoured
by a callback dated 11 minutes (660001 ms) later — the flow succeeds with a
redirect and mints a code, where the claim requires a session-not-found
failure after 10 minutes. -/
theorem session_alive_after_ttl_cex :
    (handleGitHubCallback (some "ghc") (some "aid1") (some "ghtok") (some "alice")
        "code1" 660001 "alice"
        ⟨[], (handleAuthorize (some "https://client/cb") (some "xyz") none "aid1" []).2⟩)
      = (CallbackResult.redirectToClient "https://client/cb" "code1" "xyz",
         ⟨[(StoreKey.code "code1", ⟨"alice", 660001 + 600000⟩)], []⟩) := by
  decide

/-- C6 (code bug, evaluated): the discovery document advertises `S256`, and
the authorization endpoint stores the client's PKCE challenge in the pending
session, but the callback mints the code as `{userId, expiresAt}` only —
discarding the challenge — and the token endpoint, which never reads a
`code_verifier`, redeems that code successfully without one. -/
theorem pkce_not_enforced_eval :
    "S256" ∈ oauthMetadata.code_challenge_methods_supported ∧
    (handleAuthorize (some "https://client/cb") (some "xyz") (some "chal123")
        "aid1" []).2
      = [("aid1", ⟨"https://client/cb", "xyz", some "chal123"⟩)] ∧
    (handleGitHubCallback (some "ghc") (some "aid1") (some "ghtok") (some "alice")
        "code1" 0 "alice"
        ⟨[], [("aid1", ⟨"https://client/cb", "xyz", some "chal123"⟩)]⟩).2.tokens
      = [(StoreKey.code "code1", ⟨"alice", 600000⟩)] ∧
    (handleToken "POST"
        ⟨some "authorization_code", some "code1", none, none, none, none⟩ 0
        "acc1" "ref1" [(StoreKey.code "code1", ⟨"alice", 600000⟩)]).1
      = TokenResult.ok "acc1" "Bearer" 3600 "ref1" := by
  decide

/-! ### Allow-list invariant (C5) -/

/-- One worker request that can mutate the module-level maps.  The other
routes (metadata, health, CORS preflight, the proxy) read but never write
them, so they cannot disturb any state invariant. -/
inductive Step (csv : String) : SysState → SysState → Prop
  | authorize (redirectUri state codeChallenge : Option String)
      (authId : String) (s : SysState) :
      Step csv s ⟨s.tokens,
        (handleAuthorize redirectUri state codeChallenge authId s.pending).2⟩
  | callback (qCode qState ghAccessToken ghLogin : Option String)
      (ourCode : String) (now : Nat) (s : SysState) :
      Step csv s (handleGitHubCallback qCode qState ghAccessToken ghLogin
        ourCode now csv s).2
  | token (method : String) (p : TokenParams) (now : Nat) (acc rfr : String)
      (s : SysState) :
      Step csv s ⟨(handleToken method p now acc rfr s.tokens).2, s.pending⟩

/-- Worker states reachable from the initial empty maps under a fixed
`ALLOWED_USERS` configuration. -/
inductive Reachable (csv : String) : SysState → Prop
  | init : Reachable csv ⟨[], []⟩
  | step {s s' : SysState} :
      Reachable csv s → Step csv s s' → Reachable csv s'

theorem callback_preserves_allowlist (csv : String)
    (qCode qState gtk gl : Option String) (ourCode : String) (now : Nat)
    (s : SysState)
    (hinv : ∀ k v, (k, v) ∈ s.tokens → jsToLower v.userId ∈ allowedUsersOf csv) :
    ∀ k v, (k, v) ∈ (handleGitHubCallback qCode qState gtk gl ourCode now
        csv s).2.tokens →
      jsToLower v.userId ∈ allowedUsersOf csv := by
  unfold handleGitHubCallback
  cases qCode with
  | none => exact hinv
  | some c =>
    cases qState with
    | none => exact hinv
    | some authId =>
      dsimp only
      split
      · cases hm : mget s.pending authId with
        | none => exact hinv
        | some pd =>
          dsimp only
          cases gtk with
          | none => exact hinv
          | some g =>
            dsimp only
            split
            · exact hinv
            · cases gl with
              | none => exact hinv
              | some login =>
                dsimp only
                split
                · exact hinv
                · split
                  · rename_i hmem
                    intro k v hkv
                    rcases mem_mset _ _ _ _ hkv with h | h
                    · cases h
                      exact hmem
                    · exact hinv _ _ h
                  · exact hinv
      · exact hinv

theorem token_preserves_allowlist (csv method : String) (p : TokenParams)
    (now : Nat) (acc rfr : String) (tokens : List (StoreKey × TokenData))
    (hinv : ∀ k v, (k, v) ∈ tokens → jsToLower v.userId ∈ allowedUsersOf csv) :
    ∀ k v, (k, v) ∈ (handleToken method p now acc rfr tokens).2 →
      jsToLower v.userId ∈ allowedUsersOf csv := by
  unfold handleToken
  split
  · exact hinv
  · cases hgt : p.grant_type with
    | none => exact hinv
    | some gt =>
      cases hc : p.code with
      | none => exact hinv
      | some c =>
        dsimp only
        split
        · cases hm : mget tokens (StoreKey.code c) with
          | none => exact hinv
          | some cd =>
            dsimp only
            split
            · exact hinv
            · intro k v hkv
              rcases mem_mset _ _ _ _ hkv with h | h
              · cases h
                show jsToLower cd.userId ∈ allowedUsersOf csv
                exact hinv (StoreKey.code c) cd (mget_mem _ _ _ hm)
              · exact hinv _ _ (mem_mdel _ _ _ h)
        · exact hinv

/-- C5: in every reachable worker state, every stored entry of the `tokens`
map — authorization codes and access tokens alike — is bound to a `userId`
on the configured allow-list under case-insensitive comparison: codes are
minted only after the allow-list check passes at the callback, and access
tokens only inherit the `userId` of a stored code. -/
theorem stored_principals_allowlisted (csv : String) (s : SysState)
    (hr : Reachable csv s) :
    ∀ k v, (k, v) ∈ s.tokens → jsToLower v.userId ∈ allowedUsersOf csv := by
  induction hr with
  | init => intro k v h; simp at h
  | step hreach hstep ih =>
    cases hstep with
    | authorize redirectUri state codeChallenge authId => exact ih
    | callback qCode qState gtk gl ourCode now =>
      exact callback_preserves_allowlist csv qCode qState gtk gl ourCode now _ ih
    | token method p now acc rfr =>
      exact token_preserves_allowlist csv method p now acc rfr _ ih

/-- Witness for C5: a run `/authorize` then `/callback` for user `Alice`
under allow-list `alice, bob` reaches a state storing a code bound to
`Alice`, whose lowered `userId` is on the allow-list. -/
theorem stored_principals_allowlisted_witness :
    ((StoreKey.code "code1", (⟨"Alice", 600000⟩ : TokenData))
        ∈ (handleGitHubCallback (some "ghc") (some "aid1") (some "t") (some "Alice")
            "code1" 0 "alice, bob"
            ⟨(⟨[], []⟩ : SysState).tokens,
             (handleAuthorize (some "https://client/cb") (some "xyz") none "aid1"
               (⟨[], []⟩ : SysState).pending).2⟩).2.tokens) ∧
    jsToLower (TokenData.mk "Alice" 600000).userId ∈ allowedUsersOf "alice, bob" := by
  refine ⟨by decide, ?_⟩
  exact stored_principals_allowlisted "alice, bob" _
    (Reachable.step
      (Reachable.step Reachable.init
        (Step.authorize (some "https://client/cb") (some "xyz") none "aid1" ⟨[], []⟩))
      (Step.callback (some "ghc") (some "aid1") (some "t") (some "Alice") "code1" 0 _))
    (StoreKey.code "code1") ⟨"Alice", 600000⟩ (by decide)
